import Mathlib

/-!
Verification development for the clickup-sync plugin.

This file gives a shallow embedding, in Lean 4, of the sync-state
reconciliation logic of the plugin (the live module set rooted at
src/main.ts: src/api/clickupApi.ts, src/core/syncLogic.ts,
src/utils/helpers.ts), and proves or refutes the stated properties.

Modelling conventions:
- JavaScript strings are Lean String values; JS string truthiness
  (empty string is falsy) is modelled by explicit comparison with "".
- The persisted pageMapping object is an association list
  List (String × String) with the object update/delete semantics
  (setKey overwrites in place, eraseKey removes the key).
- An HTTP call outcome is a CallResult: either ok with a status code and
  the (optional) id field of a parsed JSON body, or netError for a
  transport-level exception thrown by requestUrl.  The id field is
  the abstraction of: response text present, content type JSON, the
  parse succeeded and the body had an id property.
- The per-file upload reconciler syncFileToClickupPage is a total
  function from its inputs plus the two possible call outcomes to a
  SyncResult carrying the boolean result, the final mapping, and a
  trace of the network calls it issued (each with the mapping state at
  the moment of the call) and of the settings persistence points.
-/

/-- Association-list lookup for the pageMapping object: first binding of
the key wins (JS object keys are unique, so lists built by setKey and
eraseKey keep at most one binding per key). -/
def lookupKey (m : List (String × String)) (k : String) : Option String :=
  match m with
  | [] => none
  | kv :: rest => if kv.1 = k then some kv.2 else lookupKey rest k

/-- JS object property write `m[k] = v`: overwrite the binding in place
when the key is present, otherwise append a new binding. -/
def setKey (m : List (String × String)) (k v : String) : List (String × String) :=
  if (lookupKey m k).isSome then
    m.map (fun kv => if kv.1 = k then (k, v) else kv)
  else
    m ++ [(k, v)]

/-- JS `delete m[k]`: drop every binding of the key. -/
def eraseKey (m : List (String × String)) (k : String) : List (String × String) :=
  m.filter (fun kv => decide (kv.1 ≠ k))

/-- Remote page record as returned by the ClickUp pages endpoint
(models/clickupTypes.ts usage in src/api/clickupApi.ts): id, display
name, and the optional parent page id (null or absent modelled as
none). -/
structure ClickUpPage where
  id : String
  name : String
  parent_id : Option String
deriving DecidableEq, Repr

/-- Sync target configuration record (src/models/settings.ts). -/
structure SyncTargetRec where
  docId : String
  folderPath : String
  parentPageId : Option String
deriving DecidableEq, Repr

/-- The slice of the plugin settings the reconciler reads
(src/models/settings.ts): API key, workspace id, and the persisted
page mapping. -/
structure SettingsRec where
  clickUpApiKey : String
  clickUpWorkspaceId : String
  pageMapping : List (String × String)
deriving DecidableEq, Repr

/-- A local file as the upload reconciler sees it: vault path, basename,
and its content; none models a cachedRead failure. -/
structure UploadFile where
  path : String
  basename : String
  content : Option String
deriving DecidableEq, Repr

/-- Outcome of one requestUrl call: an HTTP response with a status code
and the id field of the parsed JSON body when there is one, or a
transport-level exception. -/
inductive CallResult where
  | ok (status : Nat) (jsonId : Option String)
  | netError
deriving DecidableEq, Repr

/-- Request body sent to the pages endpoint: name, content (the
content_format field is the constant text/md and is omitted), and
parent_page_id for create calls (none when not attached). -/
structure ReqBody where
  name : String
  content : String
  parentPageId : Option String
deriving DecidableEq, Repr

/-- Trace event of one reconciler run: a PUT (update) call against a
page id, a POST (create) call, or a saveSettings persistence point.
Call events carry the request body, the pageMapping state at the moment
the call is issued, and the call outcome. -/
inductive SyncEvent where
  | put (pageId : String) (body : ReqBody) (mappingAtCall : List (String × String))
      (res : CallResult)
  | post (body : ReqBody) (mappingAtCall : List (String × String)) (res : CallResult)
  | save (mappingSaved : List (String × String))
deriving DecidableEq, Repr

/-- Result of one per-file upload: the boolean returned by
syncFileToClickupPage, the final pageMapping, and the event trace. -/
structure SyncResult where
  success : Bool
  mapping : List (String × String)
  trace : List SyncEvent
deriving DecidableEq, Repr

/-- JS truthiness filter for `syncTarget.parentPageId`: the
parent_page_id property is attached to the create body only when the
configured value is truthy (non-null, non-empty). -/
def normalizeParentOpt (p : Option String) : Option String :=
  match p with
  | some s => if s = "" then none else some s
  | none => none

/-- Target page id resolution (src/api/clickupApi.ts lines 154-170):
read `pageMapping[mappingKey] || null` (an empty stored id is falsy and
counts as absent), and when absent scan the fetched flat page list for
the first page whose name equals the file basename; on a hit adopt its
id and write it into the mapping under the key.  Returns the raw
assigned target id (possibly the empty string when the found page has
an empty id) together with the updated mapping. -/
def resolveTargetPageId (mapping : List (String × String)) (mappingKey basename : String)
    (existingPages : Option (List ClickUpPage)) :
    Option String × List (String × String) :=
  let t0 : Option String :=
    match lookupKey mapping mappingKey with
    | some v => if v = "" then none else some v
    | none => none
  match t0 with
  | some v => (some v, mapping)
  | none =>
    match existingPages with
    | none => (none, mapping)
    | some ps =>
      match ps.find? (fun p => p.name == basename) with
      | some p => (some p.id, setKey mapping mappingKey p.id)
      | none => (none, mapping)

/-- Create section of the upload reconciler (src/api/clickupApi.ts
lines 225-271), reached either directly (no target page id) or after a
failed update: issue the POST with name, content and the truthy
configured parent id; the result is computed from the status and a
body id, and on success the id is stored in the mapping under the key.
This definition treats the parsed body of each call independently; in
the source the success check reads the mutable responseJson variable,
which on the fallback path retains the parsed body of the failed PUT
when the POST body is absent or unparsable — that retention is
modelled faithfully by createPageSectionJson and
syncFileToClickupPageJson below, and the theorems stated over this
definition pin call outcomes on which the two agree (PUT success,
transport exceptions, or a POST whose own body parsed with an id). -/
def attemptCreatePage (fileName fileContent mappingKey : String) (parentOpt : Option String)
    (m : List (String × String)) (evs : List SyncEvent) (postR : CallResult) : SyncResult :=
  let body : ReqBody := ⟨fileName, fileContent, normalizeParentOpt parentOpt⟩
  let ev := SyncEvent.post body m postR
  match postR with
  | .netError => ⟨false, m, evs ++ [ev]⟩
  | .ok st jid =>
    match jid with
    | some nid =>
      if (st = 200 ∨ st = 201) ∧ nid ≠ "" then
        ⟨true, setKey m mappingKey nid, evs ++ [ev]⟩
      else
        ⟨false, m, evs ++ [ev]⟩
    | none => ⟨false, m, evs ++ [ev]⟩

/-- Per-file upload reconciler syncFileToClickupPage
(src/api/clickupApi.ts lines 123-281).  Guard clauses: missing API key
or workspace id, missing target doc id, or a failed file read each
return false with no network call.  Otherwise resolve the target page
id (mapping then name discovery); when a truthy target id is known,
issue the PUT: status 200 or 204 returns true immediately, a transport
exception is caught and returns false, and any other status deletes
the now-untrusted mapping entry and falls through to the create
section.  When no truthy target id is known the create section runs
directly.  putR and postR are the outcomes the environment would give
the PUT and the POST. -/
def syncFileToClickupPage (file : UploadFile) (target : SyncTargetRec)
    (settings : SettingsRec) (existingPages : Option (List ClickUpPage))
    (putR postR : CallResult) : SyncResult :=
  if settings.clickUpApiKey = "" ∨ settings.clickUpWorkspaceId = "" then
    ⟨false, settings.pageMapping, []⟩
  else if target.docId = "" then
    ⟨false, settings.pageMapping, []⟩
  else
    match file.content with
    | none => ⟨false, settings.pageMapping, []⟩
    | some fileContent =>
      let mappingKey := target.docId ++ ":::" ++ file.path
      let resolved := resolveTargetPageId settings.pageMapping mappingKey file.basename
        existingPages
      let m1 := resolved.2
      match resolved.1 with
      | some pid =>
        if pid = "" then
          attemptCreatePage file.basename fileContent mappingKey target.parentPageId m1 [] postR
        else
          let putBody : ReqBody := ⟨file.basename, fileContent, none⟩
          let ev := SyncEvent.put pid putBody m1 putR
          match putR with
          | .netError => ⟨false, m1, [ev]⟩
          | .ok st _ =>
            if st = 200 ∨ st = 204 then ⟨true, m1, [ev]⟩
            else
              attemptCreatePage file.basename fileContent mappingKey target.parentPageId
                (eraseKey m1 mappingKey) [ev] postR
      | none =>
        attemptCreatePage file.basename fileContent mappingKey target.parentPageId m1 [] postR

/-- One step of the orchestrator loop (src/core/syncLogic.ts lines
137-145): run the per-file reconciler, then persist the settings (and
with them the mapping) with saveSettings.  The save event carries the
mapping that gets persisted. -/
def syncFileAndSave (file : UploadFile) (target : SyncTargetRec) (settings : SettingsRec)
    (existingPages : Option (List ClickUpPage)) (putR postR : CallResult) : SyncResult :=
  let r := syncFileToClickupPage file target settings existingPages putR postR
  ⟨r.success, r.mapping, r.trace ++ [SyncEvent.save r.mapping]⟩

/-- True exactly on a call event whose outcome was a transport-level
exception. -/
def eventFailed : SyncEvent → Bool
  | .put _ _ _ .netError => true
  | .post _ _ .netError => true
  | _ => false

/-- Normalization applied in the first pass of the tree builder
(src/api/clickupApi.ts line 82: `parent_id: page.parent_id || null`).
A missing parent stays absent and, by JS falsiness, an empty-string
parent id also becomes null. -/
def normPage (p : ClickUpPage) : ClickUpPage :=
  { p with parent_id :=
      match p.parent_id with
      | some s => if s = "" then none else some s
      | none => none }

/-- JS Map.set on an association list keyed by page id: replace the
value in place when the key exists (keeping its position), else append.
This is the pageMap of getClickUpDocPagesTree. -/
def pageMapSet (m : List (String × ClickUpPage)) (k : String) (v : ClickUpPage) :
    List (String × ClickUpPage) :=
  if m.any (fun kv => kv.1 == k) then
    m.map (fun kv => if kv.1 = k then (k, v) else kv)
  else
    m ++ [(k, v)]

/-- First pass of getClickUpDocPagesTree (src/api/clickupApi.ts lines
78-86): one normalized node per page, keyed by id, in Map insertion
order (a duplicate id keeps the position of its first occurrence but
the value of its last). -/
def buildPageMap (pages : List ClickUpPage) : List (String × ClickUpPage) :=
  pages.foldl (fun m p => pageMapSet m p.id (normPage p)) []

/-- The nodes of the page map in iteration order. -/
def pageMapNodes (pages : List ClickUpPage) : List ClickUpPage :=
  (buildPageMap pages).map (fun kv => kv.2)

/-- Membership test of the page map (Map.has). -/
def pageMapHas (pages : List ClickUpPage) (k : String) : Bool :=
  (buildPageMap pages).any (fun kv => kv.1 == k)

/-- Roots returned by the second pass of getClickUpDocPagesTree
(src/api/clickupApi.ts lines 88-107): iterating the map, a node whose
normalized parent id is null or names no key of the map is pushed to
rootNodes; the list keeps map iteration order. -/
def buildTreeRoots (pages : List ClickUpPage) : List ClickUpPage :=
  (pageMapNodes pages).filter (fun n =>
    match n.parent_id with
    | none => true
    | some pid => !(pageMapHas pages pid))

/-- Children attached to the node with the given id by the second pass:
iterating the map, a node with a truthy parent id that is a key of the
map is pushed onto the children array of the node Map.get finds for
that id, so the node keyed by parentId ends with exactly the map nodes
whose normalized parent id equals parentId, in map iteration order
(the pages array mirrors children push for push, so it holds the same
list). -/
def buildTreeChildren (pages : List ClickUpPage) (parentId : String) : List ClickUpPage :=
  (pageMapNodes pages).filter (fun n =>
    match n.parent_id with
    | some pid => pid == parentId && pageMapHas pages pid
    | none => false)

/-- JS String.split on the literal three-character separator :::,
on character lists: a leftmost occurrence of the separator ends the
current token; characters otherwise accumulate into the token being
built.  Splitting the empty string gives one empty token, as in JS. -/
def splitOnTripleColon : List Char → List (List Char)
  | [] => [[]]
  | ':' :: ':' :: ':' :: rest => [] :: splitOnTripleColon rest
  | c :: rest =>
    match splitOnTripleColon rest with
    | [] => [[c]]
    | t :: ts => (c :: t) :: ts

/-- The mapping-key split `mappingKey.split(':::')` as a list of
strings. -/
def splitKey (k : String) : List String :=
  (splitOnTripleColon k.data).map fun l => ⟨l⟩

/-- Drop leading and trailing whitespace from a character list, the
effect of JS String.trim. -/
def trimChars (l : List Char) : List Char :=
  ((l.dropWhile Char.isWhitespace).reverse.dropWhile Char.isWhitespace).reverse

/-- Mapping garbage collection cleanupPageMapping (src/core/syncLogic.ts
lines 243-282) on the slice of state it reads: scan every mapping key,
drop a key whose split on the three-character separator does not give
exactly two parts, and drop an entry whose file path is not among the
existing markdown file paths or whose doc id is not among the
configured target doc ids. -/
def cleanupPageMapping (mapping : List (String × String))
    (allMdFilesPaths validDocIds : List String) : List (String × String) :=
  mapping.filter (fun kv =>
    let parts := splitKey kv.1
    if parts.length ≠ 2 then
      false
    else
      let docId := parts.getD 0 ""
      let obsidianPath := parts.getD 1 ""
      let fileExists := allMdFilesPaths.contains obsidianPath
      let docIdIsValid := validDocIds.contains docId
      !(!fileExists || !docIdIsValid))

/-- Normalized folder path of a sync target
(src/utils/helpers.ts lines 272-276): trim, then ensure a trailing
slash when non-empty; trailing-slash and prefix tests are on the
character lists underlying the strings. -/
def normalizeFolderPath (folderPath : String) : String :=
  let f : String := ⟨trimChars folderPath.data⟩
  if f = "" || ['/'].isSuffixOf f.data then f else f ++ "/"

/-- Match test of findSyncTargetForFile: an empty normalized folder path
matches every file, otherwise the file path must start with the
normalized folder path. -/
def targetMatches (filePath : String) (target : SyncTargetRec) : Bool :=
  let n := normalizeFolderPath target.folderPath
  n == "" || n.data.isPrefixOf filePath.data

/-- findSyncTargetForFile (src/utils/helpers.ts lines 265-286): walk the
configured targets in order and return the first whose folder matches
the file path; none when no target matches (the empty-target-list early
return gives the same answer). -/
def findSyncTargetForFile (filePath : String) : List SyncTargetRec → Option SyncTargetRec
  | [] => none
  | t :: rest =>
    if targetMatches filePath t then some t else findSyncTargetForFile filePath rest

/-- Remote page tree node (models/clickupTypes.ts usage): a page with
its children.  The pages array of a node built by
getClickUpDocPagesTree receives exactly the same pushes as children,
so one list suffices for the search functions. -/
inductive PageNode where
  | mk (id : String) (name : String) (children : List PageNode)

/-- Page id of a tree node. -/
def PageNode.id : PageNode → String
  | .mk i _ _ => i

/-- Display name of a tree node. -/
def PageNode.name : PageNode → String
  | .mk _ n _ => n

/-- findPageByNameInTree (src/utils/helpers.ts lines 294-320): pre-order
depth-first search for exact name equality; a node is tested before its
children, children before later siblings.  The duplicate pages-array
branch of the source is skipped by its stringify guard whenever pages
equals children, which holds for trees built by
getClickUpDocPagesTree. -/
def findPageByNameInTree (target : String) : List PageNode → Option PageNode
  | [] => none
  | .mk i nm ch :: rest =>
    if nm = target then some (.mk i nm ch)
    else
      match findPageByNameInTree target ch with
      | some f => some f
      | none => findPageByNameInTree target rest

/-- One folder-segment step of the parent inference loop in
syncVaultToClickupDoc (src/core/syncLogic.ts lines 102-124): look the
segment name up in the flat page list, then in the tree; on a hit the
accumulated parent id becomes the hit page id, on a miss it is left
unchanged. -/
def resolveParentLoop (flat : List ClickUpPage) (tree : List PageNode) :
    Option String → List String → Option String
  | acc, [] => acc
  | acc, seg :: rest =>
    let folderPageId : Option String :=
      match flat.find? (fun p => p.name == seg) with
      | some p => some p.id
      | none =>
        match findPageByNameInTree seg tree with
        | some f => some f.id
        | none => none
    match folderPageId with
    | some i => resolveParentLoop flat tree (some i) rest
    | none => resolveParentLoop flat tree acc rest

/-- Parent inference for one file (src/core/syncLogic.ts lines 89-128):
when the relative path has directory segments, fold the loop over all
path parts except the last (the file name) starting from the target
fallback parent id; otherwise the fallback is used unchanged. -/
def resolveParentForFile (pathParts : List String) (flat : List ClickUpPage)
    (tree : List PageNode) (fallback : Option String) : Option String :=
  if pathParts.length > 1 then
    resolveParentLoop flat tree fallback pathParts.dropLast
  else fallback

/-- Filesystem-forbidden characters replaced by sanitizeFileName
(src/utils/helpers.ts line 330). -/
def isFsForbidden (c : Char) : Bool :=
  c = '\\' || c = '/' || c = ':' || c = '*' || c = '?' || c = '"' || c = '<' || c = '>' || c = '|'

/-- Replace every forbidden character with a dash. -/
def replaceForbiddenChars (l : List Char) : List Char :=
  l.map (fun c => if isFsForbidden c then '-' else c)

/-- Collapse every maximal run of whitespace to a single space, the
effect of replace of the global whitespace-run pattern with one space
(src/utils/helpers.ts line 331); the flag records whether the previous
character was whitespace. -/
def collapseWhitespaceAux : Bool → List Char → List Char
  | _, [] => []
  | prevWs, c :: rest =>
    if c.isWhitespace then
      if prevWs then collapseWhitespaceAux true rest
      else ' ' :: collapseWhitespaceAux true rest
    else c :: collapseWhitespaceAux false rest

/-- sanitizeFileName on character lists: forbidden characters to dashes,
whitespace runs to one space, then trim. -/
def sanitizeChars (l : List Char) : List Char :=
  trimChars (collapseWhitespaceAux false (replaceForbiddenChars l))

/-- sanitizeFileName (src/utils/helpers.ts lines 327-333). -/
def sanitizeFileName (s : String) : String :=
  ⟨sanitizeChars s.data⟩

/-- The markdown extension as a character list. -/
def mdExt : List Char := ['.', 'm', 'd']

/-- Append the markdown extension unless the name already ends with it
(src/core/syncLogic.ts lines 445-447). -/
def addMdExtension (l : List Char) : List Char :=
  if mdExt.isSuffixOf l then l else l ++ mdExt

/-- File-name derivation of the download reconciler
processClickUpPageForDownload (src/core/syncLogic.ts lines 436-447):
sanitize the page name; when that name was already produced in this
download pass, append a dash and the first eight characters of the page
id; record the pre-extension name in the processed set; then add the
markdown extension if missing.  Returns the final file name and the
updated processed set. -/
def deriveDownloadFileName (pageName pageId : String) (processed : List (List Char)) :
    List Char × List (List Char) :=
  let f0 := sanitizeChars pageName.data
  let f1 := if processed.contains f0 then f0 ++ '-' :: pageId.data.take 8 else f0
  let processed2 := processed ++ [f1]
  (addMdExtension f1, processed2)

/-- Content assembled by getClickUpPageContent for a fetched page
(src/api/clickupApi.ts lines 376-383): the raw remote content (the
first truthy of the content, markdown, body and text response fields)
with a title heading and a page-id metadata line prepended.  The
download reconciler passes this string unchanged to vault.create or
vault.modify, so it is exactly the downloaded file content. -/
def formatDownloadedPageContent (pageName pageId rawContent : String) : String :=
  let pageTitle := if pageName = "" then "ClickUp Page" else pageName
  "# " ++ pageTitle ++ "\n\n" ++ "*ClickUp Page ID: " ++ pageId ++ "*\n\n" ++ rawContent

/-- Outcome of one requestUrl call with the parse of its body made
explicit: ok carries the HTTP status and, when the response text is
present with a JSON content type and parses, the id field of the
parsed object (inner none when the object has no id property); the
outer none means the body was absent, non-JSON or unparsable, in which
case the mutable responseJson variable of the source keeps whatever
value it had. -/
inductive HttpResult where
  | ok (status : Nat) (parsedBody : Option (Option String))
  | netError
deriving DecidableEq, Repr

/-- The id field of the responseJson variable after a parse block ran:
a parsed body replaces responseJson, while an absent or unparsable
body leaves the previous value in place, since the assignments at
src/api/clickupApi.ts lines 199-202 and 249-252 happen only inside the
text-and-content-type guard and a parse exception is swallowed. -/
def effectiveJsonId (parsedBody : Option (Option String)) (prevId : Option String) :
    Option String :=
  match parsedBody with
  | some idField => idField
  | none => prevId

/-- Create section of the upload reconciler with the mutable
responseJson threading made explicit (src/api/clickupApi.ts lines
225-271, result and mapping slice): the success check at line 263
reads responseJson, which the POST parse block overwrote only when the
POST body parsed, so when the section is entered after a failed update
whose PUT body parsed, a 2xx create with an absent or unparsable body
is judged on that retained body and the id it stores is that stale id.
prevId is the id field of responseJson on entry (none on the
direct-create path, where responseJson is still null).  The issued
request body is the same as in attemptCreatePage. -/
def createPageSectionJson (mappingKey : String) (prevId : Option String)
    (m : List (String × String)) (postR : HttpResult) : Bool × List (String × String) :=
  match postR with
  | .netError => (false, m)
  | .ok st parsedBody =>
    match effectiveJsonId parsedBody prevId with
    | some nid =>
      if (st = 200 ∨ st = 201) ∧ nid ≠ "" then (true, setKey m mappingKey nid)
      else (false, m)
    | none => (false, m)

/-- Per-file upload reconciler with the responseJson threading of the
source made explicit (result and final-mapping slice of
src/api/clickupApi.ts lines 123-281): identical control flow to
syncFileToClickupPage, except that the create-success check reads the
latest parsed body, which after a failed update is the body of the
failed PUT whenever the POST body did not parse. -/
def syncFileToClickupPageJson (file : UploadFile) (target : SyncTargetRec)
    (settings : SettingsRec) (existingPages : Option (List ClickUpPage))
    (putR postR : HttpResult) : Bool × List (String × String) :=
  if settings.clickUpApiKey = "" ∨ settings.clickUpWorkspaceId = "" then
    (false, settings.pageMapping)
  else if target.docId = "" then
    (false, settings.pageMapping)
  else
    match file.content with
    | none => (false, settings.pageMapping)
    | some _ =>
      let mappingKey := target.docId ++ ":::" ++ file.path
      let resolved := resolveTargetPageId settings.pageMapping mappingKey file.basename
        existingPages
      let m1 := resolved.2
      match resolved.1 with
      | some pid =>
        if pid = "" then createPageSectionJson mappingKey none m1 postR
        else
          match putR with
          | .netError => (false, m1)
          | .ok st putParsed =>
            if st = 200 ∨ st = 204 then (true, m1)
            else
              createPageSectionJson mappingKey (effectiveJsonId putParsed none)
                (eraseKey m1 mappingKey) postR
      | none => createPageSectionJson mappingKey none m1 postR

lemma lookupKey_map_overwrite (m : List (String × String)) (k v : String) :
    lookupKey (m.map (fun kv => if kv.1 = k then (k, v) else kv)) k =
      if (lookupKey m k).isSome then some v else none := by
  induction m with
  | nil => simp [lookupKey]
  | cons kv rest ih =>
    by_cases h : kv.1 = k
    · simp [lookupKey, h]
    · simp [lookupKey, h, ih]

lemma lookupKey_append (m1 m2 : List (String × String)) (k : String) :
    lookupKey (m1 ++ m2) k =
      match lookupKey m1 k with
      | some v => some v
      | none => lookupKey m2 k := by
  induction m1 with
  | nil => simp [lookupKey]
  | cons kv rest ih =>
    by_cases h : kv.1 = k
    · simp [lookupKey, h]
    · simp [lookupKey, h, ih]

lemma lookupKey_setKey (m : List (String × String)) (k v : String) :
    lookupKey (setKey m k v) k = some v := by
  unfold setKey
  by_cases h : (lookupKey m k).isSome
  · simp [h, lookupKey_map_overwrite]
  · simp [h, lookupKey_append]
    cases hl : lookupKey m k with
    | some w => rw [hl] at h; simp at h
    | none => simp [lookupKey]

lemma lookupKey_eraseKey (m : List (String × String)) (k : String) :
    lookupKey (eraseKey m k) k = none := by
  induction m with
  | nil => rfl
  | cons kv rest ih =>
    by_cases h : kv.1 = k
    · simpa [eraseKey, h] using ih
    · simpa [eraseKey, lookupKey, h] using ih

/-- C4.  Garbage collection of the mapping: an entry survives
cleanupPageMapping exactly when it was present before, its key splits
on the three-character separator ::: into exactly two parts, the path
part is among the existing local file paths, and the doc-id part is
among the valid doc ids; keys that fail to parse into exactly two
parts, or whose file is missing, or whose doc id is invalid, are all
removed. -/
theorem cleanupPageMapping_mem_iff (mapping : List (String × String))
    (allMdFilesPaths validDocIds : List String) (kv : String × String) :
    kv ∈ cleanupPageMapping mapping allMdFilesPaths validDocIds ↔
      kv ∈ mapping ∧ ∃ d p, splitKey kv.1 = [d, p] ∧
        p ∈ allMdFilesPaths ∧ d ∈ validDocIds := by
  unfold cleanupPageMapping
  rw [List.mem_filter]
  refine and_congr_right fun _ => ?_
  cases h : splitKey kv.1 with
  | nil => simp [h]
  | cons a t =>
    cases t with
    | nil => simp [h]
    | cons b t2 =>
      cases t2 with
      | nil =>
        simp only [h]
        constructor
        · intro hh
          simp at hh
          exact ⟨a, b, rfl, hh.1, hh.2⟩
        · rintro ⟨d, p, hdp, hb, ha⟩
          injection hdp with h1 h2
          injection h2 with h2 h3
          subst h1; subst h2
          simp [hb, ha]
      | cons c t3 => simp [h]

lemma findSyncTargetForFile_eq_find? (filePath : String) (ts : List SyncTargetRec) :
    findSyncTargetForFile filePath ts = ts.find? (targetMatches filePath) := by
  induction ts with
  | nil => rfl
  | cons t rest ih =>
    by_cases h : targetMatches filePath t
    · simp [findSyncTargetForFile, List.find?_cons, h]
    · simp only [Bool.not_eq_true] at h
      simp [findSyncTargetForFile, List.find?_cons, h, ih]

lemma targetMatches_of_norm_empty (filePath : String) (t : SyncTargetRec)
    (h : normalizeFolderPath t.folderPath = "") : targetMatches filePath t = true := by
  simp [targetMatches, h]

/-- C10.  findSyncTargetForFile returns the first target in
configuration order whose normalized folder path matches (empty path,
or the file path starts with it); a target whose normalized folder path
is empty matches every file, the scan never proceeds past it, and with
such a target present the scan always returns a target from the part of
the list up to and including it, so later targets are never selected. -/
theorem findSyncTargetForFile_first_match (filePath : String) :
    (∀ ts : List SyncTargetRec,
      findSyncTargetForFile filePath ts = ts.find? (targetMatches filePath)) ∧
    ∀ (pre : List SyncTargetRec) (t : SyncTargetRec) (post : List SyncTargetRec),
      normalizeFolderPath t.folderPath = "" →
      targetMatches filePath t = true ∧
      findSyncTargetForFile filePath (pre ++ t :: post) =
        findSyncTargetForFile filePath (pre ++ [t]) ∧
      (findSyncTargetForFile filePath (pre ++ t :: post)).isSome = true := by
  constructor
  · exact findSyncTargetForFile_eq_find? filePath
  · intro pre t post h
    have hm := targetMatches_of_norm_empty filePath t h
    refine ⟨hm, ?_, ?_⟩
    · induction pre with
      | nil => simp [findSyncTargetForFile, hm]
      | cons q rest ih =>
        by_cases hq : targetMatches filePath q
        · simp [findSyncTargetForFile, hq]
        · simp only [Bool.not_eq_true] at hq
          simpa [findSyncTargetForFile, hq] using ih
    · induction pre with
      | nil => simp [findSyncTargetForFile, hm]
      | cons q rest ih =>
        by_cases hq : targetMatches filePath q
        · simp [findSyncTargetForFile, hq]
        · simp only [Bool.not_eq_true] at hq
          simpa [findSyncTargetForFile, hq] using ih

/-- Closed instance of C10: with a vault-root target first, a later
target is never selected even when its folder also matches. -/
theorem findSyncTargetForFile_first_match_witness :
    findSyncTargetForFile "notes/a.md"
        [⟨"d1", "", none⟩, ⟨"d2", "notes", none⟩] = some ⟨"d1", "", none⟩ := by
  have h := (findSyncTargetForFile_first_match "notes/a.md").2 [] ⟨"d1", "", none⟩
    [⟨"d2", "notes", none⟩] (by decide)
  have h2 := h.2.1
  simp only [List.nil_append] at h2
  rw [h2]
  decide

lemma resolveParentLoop_nomatch (flat : List ClickUpPage) (tree : List PageNode)
    (l : List String) (acc : Option String)
    (h : ∀ seg ∈ l, flat.find? (fun p => p.name == seg) = none ∧
      findPageByNameInTree seg tree = none) :
    resolveParentLoop flat tree acc l = acc := by
  induction l with
  | nil => rfl
  | cons seg rest ih =>
    have hs := h seg (List.mem_cons_self seg rest)
    have hr : ∀ s ∈ rest, flat.find? (fun p => p.name == s) = none ∧
        findPageByNameInTree s tree = none :=
      fun s hsr => h s (List.mem_cons_of_mem seg hsr)
    simp [resolveParentLoop, hs.1, hs.2, ih hr]

/-- C7.  Parent inference miss: a folder segment whose name matches no
remote page, neither in the flat list nor in the tree, leaves the
accumulated parent id unchanged, and when no directory segment of the
file path matches any remote page the resolved parent id equals the
configured fallback parent id of the target. -/
theorem resolveParentForFile_all_miss (flat : List ClickUpPage) (tree : List PageNode) :
    (∀ (acc : Option String) (seg : String) (rest : List String),
      flat.find? (fun p => p.name == seg) = none →
      findPageByNameInTree seg tree = none →
      resolveParentLoop flat tree acc (seg :: rest) =
        resolveParentLoop flat tree acc rest) ∧
    ∀ (pathParts : List String) (fallback : Option String),
      (∀ seg ∈ pathParts.dropLast,
        flat.find? (fun p => p.name == seg) = none ∧
        findPageByNameInTree seg tree = none) →
      resolveParentForFile pathParts flat tree fallback = fallback := by
  constructor
  · intro acc seg rest h1 h2
    simp [resolveParentLoop, h1, h2]
  · intro pathParts fallback h
    unfold resolveParentForFile
    split
    · exact resolveParentLoop_nomatch flat tree pathParts.dropLast fallback h
    · rfl

/-- Closed instance of C7: the single unmatched folder segment of
NoSuchFolder/x.md leaves the fallback parent id unchanged. -/
theorem resolveParentForFile_all_miss_witness :
    resolveParentForFile ["NoSuchFolder", "x.md"] [] [] (some "fb0") = some "fb0" :=
  (resolveParentForFile_all_miss [] []).2 ["NoSuchFolder", "x.md"] (some "fb0")
    (fun _ _ => ⟨rfl, by simp [findPageByNameInTree]⟩)

/-- C2.  Update-then-create fallback: when a truthy target page id is
known and the PUT returns a status other than 200/204, the reconciler
deletes the mapping entry for the file key and then issues the create
call; on a create success (status 200 or 201 with an id in the body)
the run returns true, the mapping seen by the create call no longer
holds the old entry, and the final mapping binds the file key to the
new page id. -/
theorem syncFile_update_fallback_create (file : UploadFile) (target : SyncTargetRec)
    (settings : SettingsRec) (existingPages : Option (List ClickUpPage))
    (pid : String) (m1 : List (String × String)) (st : Nat) (jid : Option String)
    (st2 : Nat) (nid : String) (fileContent : String)
    (hk : settings.clickUpApiKey ≠ "") (hw : settings.clickUpWorkspaceId ≠ "")
    (hd : target.docId ≠ "")
    (hc : file.content = some fileContent)
    (hres : resolveTargetPageId settings.pageMapping (target.docId ++ ":::" ++ file.path)
      file.basename existingPages = (some pid, m1))
    (hpid : pid ≠ "")
    (hput : ¬(st = 200 ∨ st = 204))
    (hst2 : st2 = 200 ∨ st2 = 201) (hnid : nid ≠ "") :
    syncFileToClickupPage file target settings existingPages (.ok st jid)
        (.ok st2 (some nid)) =
      ⟨true,
       setKey (eraseKey m1 (target.docId ++ ":::" ++ file.path))
         (target.docId ++ ":::" ++ file.path) nid,
       [SyncEvent.put pid ⟨file.basename, fileContent, none⟩ m1 (.ok st jid),
        SyncEvent.post ⟨file.basename, fileContent, normalizeParentOpt target.parentPageId⟩
          (eraseKey m1 (target.docId ++ ":::" ++ file.path)) (.ok st2 (some nid))]⟩ ∧
    lookupKey (setKey (eraseKey m1 (target.docId ++ ":::" ++ file.path))
      (target.docId ++ ":::" ++ file.path) nid) (target.docId ++ ":::" ++ file.path) =
      some nid ∧
    lookupKey (eraseKey m1 (target.docId ++ ":::" ++ file.path))
      (target.docId ++ ":::" ++ file.path) = none := by
  refine ⟨?_, lookupKey_setKey _ _ _, lookupKey_eraseKey _ _⟩
  have hg1 : ¬(settings.clickUpApiKey = "" ∨ settings.clickUpWorkspaceId = "") := by
    simp [hk, hw]
  unfold syncFileToClickupPage
  rw [if_neg hg1, if_neg hd]
  simp only [hc, hres, if_neg hpid, if_neg hput]
  simp [attemptCreatePage, hst2, hnid]

/-- Closed instance of C2: stored id p1, PUT answered 404, POST answered
200 with id p2 — the run succeeds and the mapping now binds the key to
p2. -/
theorem syncFile_update_fallback_create_witness :
    (syncFileToClickupPage ⟨"f.md", "f", some "c"⟩ ⟨"d", "", none⟩
      ⟨"k", "w", [("d:::f.md", "p1")]⟩ none (.ok 404 none) (.ok 200 (some "p2"))).success =
      true ∧
    lookupKey (syncFileToClickupPage ⟨"f.md", "f", some "c"⟩ ⟨"d", "", none⟩
      ⟨"k", "w", [("d:::f.md", "p1")]⟩ none (.ok 404 none)
      (.ok 200 (some "p2"))).mapping "d:::f.md" = some "p2" := by
  have h := syncFile_update_fallback_create ⟨"f.md", "f", some "c"⟩ ⟨"d", "", none⟩
    ⟨"k", "w", [("d:::f.md", "p1")]⟩ none "p1" [("d:::f.md", "p1")] 404 none 200 "p2" "c"
    (by decide) (by decide) (by decide) rfl (by decide) (by decide) (by decide)
    (Or.inl rfl) (by decide)
  rw [h.1]
  decide

/-- Amended C5.  Name-based discovery during upload: when the mapping
key is absent and the basename matches a page in the flat list, the
reconciler adopts that page id, records it in the in-memory mapping
under the file key before issuing the update call (the mapping snapshot
carried by the PUT event already binds the key), issues the update
against that id rather than creating a page, and on update success
returns true with the discovered binding in the final mapping; the
settings (and with them the mapping) are persisted by the caller only
after the per-file sync returns, which is after the update call. -/
theorem syncFile_discovery_before_update (file : UploadFile) (target : SyncTargetRec)
    (settings : SettingsRec) (ps : List ClickUpPage) (p : ClickUpPage)
    (st : Nat) (jid : Option String) (postR : CallResult) (fileContent : String)
    (hk : settings.clickUpApiKey ≠ "") (hw : settings.clickUpWorkspaceId ≠ "")
    (hd : target.docId ≠ "")
    (hc : file.content = some fileContent)
    (habs : lookupKey settings.pageMapping (target.docId ++ ":::" ++ file.path) = none)
    (hfind : ps.find? (fun q => q.name == file.basename) = some p)
    (hpid : p.id ≠ "")
    (hst : st = 200 ∨ st = 204) :
    syncFileAndSave file target settings (some ps) (.ok st jid) postR =
      ⟨true,
       setKey settings.pageMapping (target.docId ++ ":::" ++ file.path) p.id,
       [SyncEvent.put p.id ⟨file.basename, fileContent, none⟩
          (setKey settings.pageMapping (target.docId ++ ":::" ++ file.path) p.id)
          (.ok st jid),
        SyncEvent.save
          (setKey settings.pageMapping (target.docId ++ ":::" ++ file.path) p.id)]⟩ ∧
    lookupKey (setKey settings.pageMapping (target.docId ++ ":::" ++ file.path) p.id)
      (target.docId ++ ":::" ++ file.path) = some p.id := by
  refine ⟨?_, lookupKey_setKey _ _ _⟩
  have hg1 : ¬(settings.clickUpApiKey = "" ∨ settings.clickUpWorkspaceId = "") := by
    simp [hk, hw]
  have hres : resolveTargetPageId settings.pageMapping
      (target.docId ++ ":::" ++ file.path) file.basename (some ps) =
      (some p.id, setKey settings.pageMapping (target.docId ++ ":::" ++ file.path) p.id) := by
    unfold resolveTargetPageId
    simp only [habs, hfind]
  unfold syncFileAndSave syncFileToClickupPage
  rw [if_neg hg1, if_neg hd]
  simp only [hc, hres, if_neg hpid, if_pos hst]
  rfl

/-- Closed instance of the amended C5: discovery of page p9 by the
basename a, recorded in the mapping snapshot the update call sees, with
the save following the call. -/
theorem syncFile_discovery_before_update_witness :
    syncFileAndSave ⟨"a.md", "a", some "body"⟩ ⟨"d", "", none⟩ ⟨"k", "w", []⟩
      (some [⟨"p9", "a", none⟩]) (.ok 200 none) (.ok 200 none) =
      ⟨true, [("d:::a.md", "p9")],
       [SyncEvent.put "p9" ⟨"a", "body", none⟩ [("d:::a.md", "p9")] (.ok 200 none),
        SyncEvent.save [("d:::a.md", "p9")]]⟩ := by
  have h := syncFile_discovery_before_update ⟨"a.md", "a", some "body"⟩ ⟨"d", "", none⟩
    ⟨"k", "w", []⟩ [⟨"p9", "a", none⟩] ⟨"p9", "a", none⟩ 200 none (.ok 200 none) "body"
    (by decide) (by decide) (by decide) rfl rfl rfl (by decide) (Or.inl rfl)
  rw [h.1]
  decide

/-- Counterexample to C5 as stated: in the live code the discovered
mapping is not persisted before the update call.  In a run where the
mapping is empty, the flat pages hold a page named like the file
basename, and the update succeeds, the trace consists of the PUT
followed by the single saveSettings (issued by the caller after the
per-file sync), so no persistence point precedes the update call. -/
theorem syncFile_discovery_no_save_before_update :
    (syncFileAndSave ⟨"a.md", "a", some "body"⟩ ⟨"d", "", none⟩ ⟨"k", "w", []⟩
      (some [⟨"p9", "a", none⟩]) (.ok 200 none) (.ok 200 none)).trace =
      [SyncEvent.put "p9" ⟨"a", "body", none⟩ [("d:::a.md", "p9")] (.ok 200 none),
       SyncEvent.save [("d:::a.md", "p9")]] := by
  decide

lemma attemptCreatePage_trace (fileName fileContent mappingKey : String)
    (parentOpt : Option String) (m : List (String × String)) (evs : List SyncEvent)
    (postR : CallResult) :
    (attemptCreatePage fileName fileContent mappingKey parentOpt m evs postR).trace =
      evs ++ [SyncEvent.post ⟨fileName, fileContent, normalizeParentOpt parentOpt⟩ m
        postR] := by
  cases postR with
  | netError => rfl
  | ok st jid =>
    cases jid with
    | none => rfl
    | some nid =>
      by_cases h : (st = 200 ∨ st = 201) ∧ nid ≠ ""
      · simp [attemptCreatePage, h]
      · simp [attemptCreatePage, h]

/-- C9.  Upload never throws: the per-file upload reconciler is a total
function into a boolean result, and whenever some call of the run ended
in a transport-level exception the run result is false — the exception
is absorbed inside the function instead of propagating to the caller. -/
theorem syncFile_transport_failure_false (file : UploadFile) (target : SyncTargetRec)
    (settings : SettingsRec) (existingPages : Option (List ClickUpPage))
    (putR postR : CallResult) :
    (∃ e ∈ (syncFileToClickupPage file target settings existingPages putR postR).trace,
      eventFailed e = true) →
    (syncFileToClickupPage file target settings existingPages putR postR).success =
      false := by
  by_cases hg1 : settings.clickUpApiKey = "" ∨ settings.clickUpWorkspaceId = ""
  · simp [syncFileToClickupPage, hg1]
  · by_cases hd : target.docId = ""
    · simp [syncFileToClickupPage, hg1, hd]
    · cases hc : file.content with
      | none => simp [syncFileToClickupPage, hg1, hd, hc]
      | some fileContent =>
        rcases hres : resolveTargetPageId settings.pageMapping
          (target.docId ++ ":::" ++ file.path) file.basename existingPages with ⟨tRaw, m1⟩
        simp only [syncFileToClickupPage, hg1, hd, hc, hres, if_false, or_self,
          if_neg hg1, if_neg hd]
        cases tRaw with
        | none =>
          cases postR with
          | netError =>
            intro _
            rfl
          | ok st2 jid2 =>
            intro h
            rw [attemptCreatePage_trace] at h
            simp [eventFailed] at h
        | some pid =>
          by_cases hp : pid = ""
          · simp only [if_pos hp]
            cases postR with
            | netError =>
              intro _
              rfl
            | ok st2 jid2 =>
              intro h
              rw [attemptCreatePage_trace] at h
              simp [eventFailed] at h
          · simp only [if_neg hp]
            cases putR with
            | netError =>
              intro _
              rfl
            | ok st jid =>
              by_cases hst : st = 200 ∨ st = 204
              · simp only [if_pos hst]
                intro h
                simp [eventFailed] at h
              · simp only [if_neg hst]
                cases postR with
                | netError =>
                  intro _
                  rfl
                | ok st2 jid2 =>
                  intro h
                  rw [attemptCreatePage_trace] at h
                  simp [eventFailed] at h

/-- Closed instance of C9: a transport exception on the PUT yields a
false result instead of an uncaught exception. -/
theorem syncFile_transport_failure_false_witness :
    (syncFileToClickupPage ⟨"f.md", "f", some "c"⟩ ⟨"d", "", none⟩
      ⟨"k", "w", [("d:::f.md", "p1")]⟩ none .netError (.ok 200 (some "x"))).success =
      false :=
  syncFile_transport_failure_false ⟨"f.md", "f", some "c"⟩ ⟨"d", "", none⟩
    ⟨"k", "w", [("d:::f.md", "p1")]⟩ none .netError (.ok 200 (some "x"))
    ⟨SyncEvent.put "p1" ⟨"f", "c", none⟩ [("d:::f.md", "p1")] .netError,
      by decide, by decide⟩

/-- Counterexample to C1 as stated: uploading the file notes/a.md with
content hello to an empty doc succeeds and stores the content verbatim
in the created page p1, but the content the download reconciler writes
for that page is the remote content with a title heading and a page-id
metadata line prepended, which is not byte-for-byte hello. -/
theorem roundTrip_not_bytewise :
    syncFileToClickupPage ⟨"notes/a.md", "a", some "hello"⟩ ⟨"d", "notes", none⟩
      ⟨"k", "w", []⟩ (some []) (.ok 0 none) (.ok 200 (some "p1")) =
      ⟨true, [("d:::notes/a.md", "p1")],
       [SyncEvent.post ⟨"a", "hello", none⟩ [] (.ok 200 (some "p1"))]⟩ ∧
    formatDownloadedPageContent "a" "p1" "hello" ≠ "hello" := by
  decide

/-- Amended C1.  Round-trip with header: uploading a file to an empty
doc issues exactly one create call carrying the file content verbatim
and succeeds, and downloading the created page writes the remote
content with the fixed header (a markdown title line with the page name
and a ClickUp Page ID metadata line) prepended — the file content after
the round trip is the header followed by the original content, not the
bare content. -/
theorem roundTrip_with_header (file : UploadFile) (target : SyncTargetRec)
    (settings : SettingsRec) (pid : String) (st : Nat) (putR : CallResult)
    (fileContent pageName : String)
    (hk : settings.clickUpApiKey ≠ "") (hw : settings.clickUpWorkspaceId ≠ "")
    (hd : target.docId ≠ "")
    (hc : file.content = some fileContent)
    (habs : lookupKey settings.pageMapping (target.docId ++ ":::" ++ file.path) = none)
    (hst : st = 200 ∨ st = 201) (hpid : pid ≠ "") (hname : pageName ≠ "") :
    syncFileToClickupPage file target settings (some []) putR (.ok st (some pid)) =
      ⟨true, setKey settings.pageMapping (target.docId ++ ":::" ++ file.path) pid,
       [SyncEvent.post ⟨file.basename, fileContent, normalizeParentOpt target.parentPageId⟩
          settings.pageMapping (.ok st (some pid))]⟩ ∧
    formatDownloadedPageContent pageName pid fileContent =
      "# " ++ pageName ++ "\n\n" ++ "*ClickUp Page ID: " ++ pid ++ "*\n\n" ++
        fileContent := by
  constructor
  · have hg1 : ¬(settings.clickUpApiKey = "" ∨ settings.clickUpWorkspaceId = "") := by
      simp [hk, hw]
    have hres : resolveTargetPageId settings.pageMapping
        (target.docId ++ ":::" ++ file.path) file.basename (some []) =
        (none, settings.pageMapping) := by
      unfold resolveTargetPageId
      simp only [habs, List.find?]
    unfold syncFileToClickupPage
    rw [if_neg hg1, if_neg hd]
    simp only [hc, hres]
    simp [attemptCreatePage, hst, hpid]
  · simp [formatDownloadedPageContent, hname]

/-- Closed instance of the amended C1: content hello uploads verbatim to
page p1 and the downloaded file content is the header plus hello. -/
theorem roundTrip_with_header_witness :
    (syncFileToClickupPage ⟨"notes/a.md", "a", some "hello"⟩ ⟨"d", "notes", none⟩
      ⟨"k", "w", []⟩ (some []) (.ok 0 none) (.ok 200 (some "p1"))).success = true ∧
    formatDownloadedPageContent "a" "p1" "hello" =
      "# a\n\n*ClickUp Page ID: p1*\n\nhello" := by
  have h := roundTrip_with_header ⟨"notes/a.md", "a", some "hello"⟩ ⟨"d", "notes", none⟩
    ⟨"k", "w", []⟩ "p1" 200 (.ok 0 none) "hello" "a" (by decide) (by decide) (by decide)
    rfl rfl (Or.inl rfl) (by decide) (by decide)
  refine ⟨by rw [h.1], ?_⟩
  rw [h.2]
  decide

lemma pageMapSet_not_mem (m : List (String × ClickUpPage)) (k : String) (v : ClickUpPage)
    (h : m.any (fun kv => kv.1 == k) = false) : pageMapSet m k v = m ++ [(k, v)] := by
  simp [pageMapSet, h]

lemma buildPageMap_go (pages : List ClickUpPage) :
    ∀ m : List (String × ClickUpPage),
      (m.map Prod.fst ++ pages.map ClickUpPage.id).Nodup →
      pages.foldl (fun m p => pageMapSet m p.id (normPage p)) m =
        m ++ pages.map (fun p => (p.id, normPage p)) := by
  induction pages with
  | nil =>
    intro m _
    simp
  | cons p rest ih =>
    intro m h
    have hnotin : p.id ∉ m.map Prod.fst := by
      rcases List.nodup_append.mp h with ⟨_, _, hdisj⟩
      intro hin
      exact hdisj hin (List.mem_cons_self _ _)
    have hany : m.any (fun kv => kv.1 == p.id) = false := by
      simp only [List.any_eq_false]
      intro kv hkv
      simp only [beq_iff_eq]
      intro he
      exact hnotin (he ▸ List.mem_map_of_mem Prod.fst hkv)
    rw [List.foldl_cons, pageMapSet_not_mem _ _ _ hany,
      ih (m ++ [(p.id, normPage p)]) (by simpa [List.append_assoc] using h)]
    simp

lemma buildPageMap_eq (pages : List ClickUpPage)
    (h : (pages.map ClickUpPage.id).Nodup) :
    buildPageMap pages = pages.map (fun p => (p.id, normPage p)) := by
  simpa [buildPageMap] using buildPageMap_go pages [] (by simpa using h)

lemma pageMapNodes_eq (pages : List ClickUpPage)
    (h : (pages.map ClickUpPage.id).Nodup) :
    pageMapNodes pages = pages.map normPage := by
  rw [pageMapNodes, buildPageMap_eq pages h, List.map_map]
  rfl

lemma pageMapHas_eq (pages : List ClickUpPage)
    (h : (pages.map ClickUpPage.id).Nodup) (k : String) :
    pageMapHas pages k = pages.any (fun p => p.id == k) := by
  rw [pageMapHas, buildPageMap_eq pages h]
  induction pages with
  | nil => rfl
  | cons p rest ih =>
    have hr : (List.map ClickUpPage.id rest).Nodup := by
      simp only [List.map_cons, List.nodup_cons] at h
      exact h.2
    simp [ih hr]

lemma normPage_nodup (pages : List ClickUpPage)
    (h : (pages.map ClickUpPage.id).Nodup) : (pages.map normPage).Nodup := by
  apply List.Nodup.of_map ClickUpPage.id
  rw [List.map_map]
  have hco : ClickUpPage.id ∘ normPage = ClickUpPage.id := funext fun p => rfl
  rw [hco]
  exact h

/-- Amended C3.  Tree builder placement, for page lists with
pairwise-distinct non-empty ids (the shape a well-formed pages endpoint
answer has): a page whose parent id is null or names no page of the
list becomes a root of the built forest, and a page whose parent id is
the id of some page of the list appears exactly once in the children
list attached to that parent id, is not a root, and is in no other
children list.  Nodes are the input pages with the falsy-parent
normalization applied. -/
theorem buildTree_placement (pages : List ClickUpPage) (P : ClickUpPage)
    (hnd : (pages.map ClickUpPage.id).Nodup)
    (hne : ∀ q ∈ pages, q.id ≠ "")
    (hP : P ∈ pages) :
    ((P.parent_id = none ∨ ∀ q ∈ pages, some q.id ≠ P.parent_id) →
      normPage P ∈ buildTreeRoots pages) ∧
    (∀ pid, P.parent_id = some pid → ∀ Q, Q ∈ pages → Q.id = pid →
      (buildTreeChildren pages pid).count (normPage P) = 1 ∧
      normPage P ∉ buildTreeRoots pages ∧
      ∀ otherId, otherId ≠ pid → normPage P ∉ buildTreeChildren pages otherId) := by
  have hnodes := pageMapNodes_eq pages hnd
  have hmem : normPage P ∈ pages.map normPage := List.mem_map_of_mem normPage hP
  constructor
  · intro hcond
    rw [buildTreeRoots, hnodes]
    rw [List.mem_filter]
    refine ⟨hmem, ?_⟩
    rcases hcond with hnone | hall
    · simp [normPage, hnone]
    · cases hpp : P.parent_id with
      | none => simp [normPage, hpp]
      | some pp =>
        by_cases hppe : pp = ""
        · simp [normPage, hpp, hppe]
        · have hhas : pageMapHas pages pp = false := by
            rw [pageMapHas_eq pages hnd]
            simp only [List.any_eq_false]
            intro q hq
            simp only [beq_iff_eq]
            intro he
            exact hall q hq (by rw [he, hpp])
          simp [normPage, hpp, hppe, hhas]
  · intro pid hpp Q hQ hQid
    have hpidne : pid ≠ "" := hQid ▸ hne Q hQ
    have hnp : (normPage P).parent_id = some pid := by
      simp [normPage, hpp, hpidne]
    have hhas : pageMapHas pages pid = true := by
      rw [pageMapHas_eq pages hnd]
      simp only [List.any_eq_true]
      exact ⟨Q, hQ, by simp [hQid]⟩
    refine ⟨?_, ?_, ?_⟩
    · rw [buildTreeChildren, hnodes]
      rw [List.count_filter (by simp [hnp, hhas])]
      exact List.count_eq_one_of_mem (normPage_nodup pages hnd) hmem
    · rw [buildTreeRoots, hnodes]
      intro hcontra
      rw [List.mem_filter] at hcontra
      have := hcontra.2
      simp [hnp, hhas] at this
    · intro otherId hother
      rw [buildTreeChildren, hnodes]
      intro hcontra
      rw [List.mem_filter] at hcontra
      have := hcontra.2
      simp only [hnp] at this
      simp at this
      exact hother this.1.symm

/-- Counterexample to C3 as stated: with duplicate ids the Map keeps
only the last page per id, so the first page of a duplicated id never
appears in the forest (here the parentless page named x is not a root);
and an empty-string parent id is normalized to null by the falsy check
in the first pass, so a page whose parent id equals the empty id of
another page becomes a root instead of that page's child. -/
theorem buildTree_placement_cex :
    (normPage ⟨"a", "x", none⟩ ∉
      buildTreeRoots [⟨"a", "x", none⟩, ⟨"a", "y", none⟩]) ∧
    (normPage ⟨"b", "r", some ""⟩ ∈
      buildTreeRoots [⟨"", "q", none⟩, ⟨"b", "r", some ""⟩]) ∧
    buildTreeChildren [⟨"", "q", none⟩, ⟨"b", "r", some ""⟩] "" = [] := by
  decide

/-- Closed instance of the amended C3: a two-page doc with a root and a
child places the parentless page as a root and the child exactly once
under its parent. -/
theorem buildTree_placement_witness :
    normPage ⟨"r", "root", none⟩ ∈
      buildTreeRoots [⟨"r", "root", none⟩, ⟨"c", "child", some "r"⟩] ∧
    (buildTreeChildren [⟨"r", "root", none⟩, ⟨"c", "child", some "r"⟩] "r").count
      (normPage ⟨"c", "child", some "r"⟩) = 1 := by
  have h1 := (buildTree_placement [⟨"r", "root", none⟩, ⟨"c", "child", some "r"⟩]
    ⟨"r", "root", none⟩ (by decide) (by decide) (by decide)).1 (Or.inl rfl)
  have h2 := (buildTree_placement [⟨"r", "root", none⟩, ⟨"c", "child", some "r"⟩]
    ⟨"c", "child", some "r"⟩ (by decide) (by decide) (by decide)).2 "r" rfl
    ⟨"r", "root", none⟩ (by decide) rfl
  exact ⟨h1, h2.1⟩

lemma addMdExtension_suffix_ne (s t : List Char) :
    addMdExtension (s ++ '-' :: t) ≠ addMdExtension s := by
  cases hB : mdExt.isSuffixOf (s ++ '-' :: t) with
  | true =>
    cases hA : mdExt.isSuffixOf s with
    | true =>
      simp only [addMdExtension, hB, hA, if_true]
      intro h
      have h' : s ++ '-' :: t = s ++ [] := by rw [List.append_nil]; exact h
      have := List.append_cancel_left h'
      simp at this
    | false =>
      simp only [addMdExtension, hB, hA, if_true, if_false]
      intro h
      have := List.append_cancel_left h
      simp [mdExt] at this
  | false =>
    cases hA : mdExt.isSuffixOf s with
    | true =>
      simp only [addMdExtension, hB, hA, if_true, if_false]
      intro h
      have hl := congrArg List.length h
      simp [List.length_append] at hl
    | false =>
      simp only [addMdExtension, hB, hA, if_false]
      intro h
      rw [List.append_assoc] at h
      have := List.append_cancel_left h
      simp [mdExt] at this

/-- C8.  Duplicate filename disambiguation on download: when a second
page of the pass sanitizes to a base name already produced, its file
name is the sanitized name with a dash and the first eight characters
of its page id appended, followed by the markdown extension when
missing, and that name differs from the first file name, so the second
file does not overwrite the first.  Sanitization replaces each of the
nine forbidden filesystem characters with a dash, collapses whitespace
runs to one space, and trims. -/
theorem duplicate_download_names (n1 i1 n2 i2 : String) (processed : List (List Char))
    (hs : sanitizeChars n2.data = sanitizeChars n1.data)
    (hnp : processed.contains (sanitizeChars n1.data) = false) :
    (deriveDownloadFileName n2 i2 (deriveDownloadFileName n1 i1 processed).2).1 =
      addMdExtension (sanitizeChars n2.data ++ '-' :: i2.data.take 8) ∧
    (deriveDownloadFileName n2 i2 (deriveDownloadFileName n1 i1 processed).2).1 ≠
      (deriveDownloadFileName n1 i1 processed).1 := by
  have hnp2 : sanitizeChars n1.data ∉ processed := by simpa using hnp
  have h1 : deriveDownloadFileName n1 i1 processed =
      (addMdExtension (sanitizeChars n1.data),
       processed ++ [sanitizeChars n1.data]) := by
    simp [deriveDownloadFileName, hnp2]
  rw [h1]
  constructor
  · simp [deriveDownloadFileName, hs]
  · simp [deriveDownloadFileName, hs]
    exact addMdExtension_suffix_ne (sanitizeChars n1.data) (i2.data.take 8)

/-- Closed instance of C8: two pages named Notes in one pass produce
Notes.md and Notes-abcdefgh.md. -/
theorem duplicate_download_names_witness :
    (deriveDownloadFileName "Notes" "abcdefghij"
      (deriveDownloadFileName "Notes" "1234" []).2).1 = "Notes-abcdefgh.md".data ∧
    (deriveDownloadFileName "Notes" "1234" []).1 = "Notes.md".data ∧
    (deriveDownloadFileName "Notes" "abcdefghij"
      (deriveDownloadFileName "Notes" "1234" []).2).1 ≠
      (deriveDownloadFileName "Notes" "1234" []).1 := by
  have h := duplicate_download_names "Notes" "1234" "Notes" "abcdefghij" [] rfl rfl
  refine ⟨?_, by decide, h.2⟩
  rw [h.1]
  decide

/-- Counterexample to C6 as stated: on the update-fallback path a
create whose 200 response has no parsable body is judged on the
retained body of the failed PUT, so it succeeds and stores that stale
id — a 2xx create with a missing or unparsable body is not always a
failure.  Here the stored id p1 maps to a PUT answered 404 whose JSON
body carried the id stale; the POST answered 200 with no parsable
body, yet the run returns true and binds the key to stale. -/
theorem createSuccess_stale_put_body :
    syncFileToClickupPageJson ⟨"f.md", "f", some "c"⟩ ⟨"d", "", none⟩
      ⟨"k", "w", [("d:::f.md", "p1")]⟩ none (.ok 404 (some (some "stale")))
      (.ok 200 none) = (true, [("d:::f.md", "stale")]) := by
  decide

/-- Amended C6.  Create success criterion with the responseJson
retention: a create attempt succeeds iff the response status is 200 or
201 AND the id current after the POST parse block is truthy, where
that id is the id of the POST body when it parsed and otherwise the id
retained from before the call (after a failed update, the parsed body
of the failed PUT); exactly then that id is stored in the mapping
under the file key, any failure leaves the mapping unchanged, and when
no body was parsed before the call (the direct-create path) the
criterion is the one originally claimed: success iff 200/201 with a
parsed body carrying a truthy id, a 2xx response with a missing or
unparsable body being a failure. -/
theorem createPageSectionJson_success_iff (mappingKey : String) (prevId : Option String)
    (m : List (String × String)) (postR : HttpResult) :
    ((createPageSectionJson mappingKey prevId m postR).1 = true ↔
      ∃ st parsedBody nid, postR = .ok st parsedBody ∧ (st = 200 ∨ st = 201) ∧
        effectiveJsonId parsedBody prevId = some nid ∧ nid ≠ "") ∧
    (∀ st parsedBody nid, postR = .ok st parsedBody → (st = 200 ∨ st = 201) →
      effectiveJsonId parsedBody prevId = some nid → nid ≠ "" →
      lookupKey (createPageSectionJson mappingKey prevId m postR).2 mappingKey =
        some nid) ∧
    ((createPageSectionJson mappingKey prevId m postR).1 = false →
      (createPageSectionJson mappingKey prevId m postR).2 = m) ∧
    (prevId = none →
      ((createPageSectionJson mappingKey prevId m postR).1 = true ↔
        ∃ st nid, postR = .ok st (some (some nid)) ∧ (st = 200 ∨ st = 201) ∧
          nid ≠ "")) := by
  refine ⟨?_, ?_, ?_, ?_⟩
  · cases postR with
    | netError => simp [createPageSectionJson]
    | ok st parsedBody =>
      cases hE : effectiveJsonId parsedBody prevId with
      | none => simp [createPageSectionJson, hE]
      | some nid =>
        by_cases hc : (st = 200 ∨ st = 201) ∧ nid ≠ ""
        · simp only [createPageSectionJson, hE, if_pos hc]
          constructor
          · intro _
            exact ⟨st, parsedBody, nid, rfl, hc.1, hE, hc.2⟩
          · intro _
            trivial
        · simp only [createPageSectionJson, hE, if_neg hc]
          constructor
          · intro hfalse
            simp at hfalse
          · rintro ⟨st2, pb2, nid2, he, h200, hEid2, hnid2⟩
            injection he with h1 h2
            subst h1
            subst h2
            rw [hE] at hEid2
            injection hEid2 with h3
            subst h3
            exact absurd ⟨h200, hnid2⟩ hc
  · intro st parsedBody nid he h200 hEid hnid
    subst he
    simp only [createPageSectionJson, hEid, if_pos (And.intro h200 hnid)]
    exact lookupKey_setKey m mappingKey nid
  · cases postR with
    | netError =>
      intro _
      rfl
    | ok st parsedBody =>
      cases hE : effectiveJsonId parsedBody prevId with
      | none =>
        intro _
        simp [createPageSectionJson, hE]
      | some nid =>
        by_cases hc : (st = 200 ∨ st = 201) ∧ nid ≠ ""
        · simp [createPageSectionJson, hE, hc]
        · intro _
          simp [createPageSectionJson, hE, hc]
  · intro hprev
    subst hprev
    cases postR with
    | netError => simp [createPageSectionJson]
    | ok st parsedBody =>
      cases parsedBody with
      | none => simp [createPageSectionJson, effectiveJsonId]
      | some idField =>
        cases idField with
        | none => simp [createPageSectionJson, effectiveJsonId]
        | some nid =>
          by_cases hc : (st = 200 ∨ st = 201) ∧ nid ≠ ""
          · simp only [createPageSectionJson, effectiveJsonId, if_pos hc]
            constructor
            · intro _
              exact ⟨st, nid, rfl, hc.1, hc.2⟩
            · intro _
              trivial
          · simp only [createPageSectionJson, effectiveJsonId, if_neg hc]
            constructor
            · intro hfalse
              simp at hfalse
            · rintro ⟨st2, nid2, he, h200, hnid2⟩
              injection he with h1 h2
              subst h1
              injection h2 with h3
              injection h3 with h4
              subst h4
              exact absurd ⟨h200, hnid2⟩ hc

/-- Closed instance of the amended C6: a 200 response whose own body
carries the id p2 makes the create attempt succeed on the direct
path. -/
theorem createPageSectionJson_success_iff_witness :
    (createPageSectionJson "d:::a.md" none [] (.ok 200 (some (some "p2")))).1 = true :=
  (createPageSectionJson_success_iff "d:::a.md" none [] (.ok 200 (some (some "p2")))).1.mpr
    ⟨200, some (some "p2"), "p2", rfl, Or.inl rfl, rfl, by decide⟩
